import Mathlib

set_option maxRecDepth 100000
set_option maxHeartbeats 1000000

/-!
Shallow embedding of the FAT16 read-only decoder (src/src/fat.rs, src/src/fat16.rs,
src/src/utils.rs).  Byte buffers are `List Nat` (each element one byte), machine
integers are `Nat` with explicit wrapping or overflow checks where the Rust
arithmetic can wrap or panic, and every fallible or panicking computation returns
`Except Fat16Error`.  A Rust panic (out-of-bounds slice or index, arithmetic
overflow or underflow in a debug build, division by zero) is modelled as
`.error .panic`; the proper `Err(...)` returns of the source keep their own
constructors.  Loops whose iteration count is bounded by the input are given a
structural fuel argument chosen at the call site so that the fuel can never run
out; the cluster-chain walk, whose loop genuinely may diverge, exposes its fuel
parameter, and `.error .timeout` marks fuel exhaustion (divergence of the source).
-/

deriving instance DecidableEq for Except

namespace FatSpec

/-- Failure modes of the embedded code.  `panic` models a Rust panic,
`timeout` models non-termination of the cluster-chain loop (fuel ran out);
the remaining constructors model the `Err(...)` string returns of the source. -/
inductive Fat16Error where
  | panic
  | timeout
  | shortDirBuffer
  | noSuchFileOrDirectory
  | clusterOutOfRange
  | encodingError
deriving DecidableEq, Repr

/-- Rust `bytes[i]`: panics when the index is out of range. -/
def idxE (bytes : List Nat) (i : Nat) : Except Fat16Error Nat :=
  if i < bytes.length then .ok (bytes.getD i 0) else .error .panic

/-- Rust `&bytes[a..b]` with `a ≤ b`: panics when `b` exceeds the length. -/
def sliceE (bytes : List Nat) (a b : Nat) : Except Fat16Error (List Nat) :=
  if b ≤ bytes.length then .ok ((bytes.drop a).take (b - a)) else .error .panic

/-- Rust `u16::from_le_bytes` on a two-byte slice. -/
def le16 (l : List Nat) : Nat := l.getD 0 0 + 256 * l.getD 1 0

/-- Rust `u32::from_le_bytes` on a four-byte slice. -/
def le32 (l : List Nat) : Nat :=
  l.getD 0 0 + 256 * l.getD 1 0 + 65536 * l.getD 2 0 + 16777216 * l.getD 3 0

/-- Rust `u32` multiplication in a debug build: panics on overflow. -/
def mulU32 (a b : Nat) : Except Fat16Error Nat :=
  if a * b < 4294967296 then .ok (a * b) else .error .panic

/-- Rust `u32` division: panics when the divisor is zero. -/
def divU32 (a b : Nat) : Except Fat16Error Nat :=
  if b = 0 then .error .panic else .ok (a / b)

/-- Rust `str::to_ascii_lowercase` over the code points of a string. -/
def toLowerAscii (l : List Nat) : List Nat :=
  l.map (fun c => if 65 ≤ c ∧ c ≤ 90 then c + 32 else c)

/-- Is `c` a UTF-8 continuation byte (0x80..0xBF)? -/
def utf8Cont (c : Nat) : Bool := 128 ≤ c && c < 192

/-- Rust `String::from_utf8_lossy`: decode UTF-8, replacing each maximal invalid
subpart by U+FFFD (the substitution-of-maximal-subparts policy Rust implements).
The fuel argument is structural bookkeeping only: each step consumes at least one
byte, so with fuel equal to the input length the fallback case is unreachable. -/
def utf8LossyF : Nat → List Nat → List Nat
  | _, [] => []
  | 0, _ :: _ => []
  | fuel + 1, b :: rest =>
    if b < 128 then b :: utf8LossyF fuel rest
    else if b < 194 then 65533 :: utf8LossyF fuel rest
    else if b < 224 then
      match rest with
      | [] => [65533]
      | c1 :: rest1 =>
        if utf8Cont c1 then ((b - 192) * 64 + (c1 - 128)) :: utf8LossyF fuel rest1
        else 65533 :: utf8LossyF fuel rest
    else if b < 240 then
      match rest with
      | [] => [65533]
      | c1 :: rest1 =>
        if (b == 224 && (160 ≤ c1 && c1 < 192)) ||
           (b == 237 && (128 ≤ c1 && c1 < 160)) ||
           (b != 224 && b != 237 && utf8Cont c1) then
          match rest1 with
          | [] => [65533]
          | c2 :: rest2 =>
            if utf8Cont c2 then
              ((b - 224) * 4096 + (c1 - 128) * 64 + (c2 - 128)) :: utf8LossyF fuel rest2
            else 65533 :: utf8LossyF fuel rest1
        else 65533 :: utf8LossyF fuel rest
    else if b < 245 then
      match rest with
      | [] => [65533]
      | c1 :: rest1 =>
        if (b == 240 && (144 ≤ c1 && c1 < 192)) ||
           (b == 244 && (128 ≤ c1 && c1 < 144)) ||
           ((241 ≤ b && b ≤ 243) && utf8Cont c1) then
          match rest1 with
          | [] => [65533]
          | c2 :: rest2 =>
            if utf8Cont c2 then
              match rest2 with
              | [] => [65533]
              | c3 :: rest3 =>
                if utf8Cont c3 then
                  ((b - 240) * 262144 + (c1 - 128) * 4096 + (c2 - 128) * 64 + (c3 - 128))
                    :: utf8LossyF fuel rest3
                else 65533 :: utf8LossyF fuel rest2
            else 65533 :: utf8LossyF fuel rest1
        else 65533 :: utf8LossyF fuel rest
    else 65533 :: utf8LossyF fuel rest

/-- `String::from_utf8_lossy` with the fuel instantiated to the input length. -/
def utf8Lossy (l : List Nat) : List Nat := utf8LossyF l.length l

/-- The Unicode White_Space property, as tested by Rust `char::is_whitespace`. -/
def isUnicodeWhitespace (c : Nat) : Bool :=
  c == 9 || c == 10 || c == 11 || c == 12 || c == 13 || c == 32 ||
  c == 133 || c == 160 || c == 5760 ||
  (8192 ≤ c && c ≤ 8202) || c == 8232 || c == 8233 ||
  c == 8239 || c == 8287 || c == 12288

/-- Rust `str::trim`: drop leading and trailing whitespace code points. -/
def strTrim (l : List Nat) : List Nat :=
  ((l.dropWhile isUnicodeWhitespace).reverse.dropWhile isUnicodeWhitespace).reverse

/-- `format!("{}.{}", lossy(base).trim(), lossy(ext).trim())` from `parse_sfn`:
the 8.3 presentation name, joined with a dot unconditionally. -/
def sfnName (base ext : List Nat) : List Nat :=
  strTrim (utf8Lossy base) ++ [46] ++ strTrim (utf8Lossy ext)

/-- Rust `String::from_utf16`: pairs surrogates, fails on a lone surrogate. -/
def utf16Decode : List Nat → Except Fat16Error (List Nat)
  | [] => .ok []
  | u :: rest =>
    if u < 55296 ∨ 57344 ≤ u then (utf16Decode rest).map (fun l => u :: l)
    else if u < 56320 then
      match rest with
      | [] => .error .encodingError
      | v :: rest1 =>
        if 56320 ≤ v ∧ v < 57344 then
          (utf16Decode rest1).map (fun l => (65536 + (u - 55296) * 1024 + (v - 56320)) :: l)
        else .error .encodingError
    else .error .encodingError

/-- `FatDate` of src/src/fat.rs. -/
structure FatDate where
  year : Nat
  month : Nat
  day : Nat
deriving DecidableEq, Repr

/-- `impl From<u16> for FatDate`: unpack the packed date word.  The `as u8`
casts are identity because the masked values are below 256 for every input. -/
def fatDateFromPacked (date : Nat) : FatDate :=
  { year := ((date >>> 9) &&& 127) + 1980
    month := (date >>> 5) &&& 15
    day := date &&& 31 }

/-- `FatTime` of src/src/fat.rs. -/
structure FatTime where
  hour : Nat
  minute : Nat
  second : Nat
  tenths_of_second : Nat
deriving DecidableEq, Repr

/-- `impl From<(u16, u8)> for FatTime`: unpack the packed time word.  The
`as u8` casts are identity because the masked values are below 256. -/
def fatTimeFromPacked (time tenths_of_second : Nat) : FatTime :=
  { hour := (time >>> 11) &&& 31
    minute := (time >>> 5) &&& 63
    second := (time &&& 31) * 2
    tenths_of_second := tenths_of_second }

/-- `FatBPB` of src/src/fat.rs. -/
structure FatBPB where
  x86_jmp : List Nat
  oem_name : List Nat
  bytes_per_sector : Nat
  sectors_per_cluster : Nat
  reserved_sector_count : Nat
  num_fats : Nat
  root_entry_count : Nat
  total_sectors : Nat
  media : Nat
  sectors_per_fat : Nat
  sectors_per_track : Nat
  num_heads : Nat
  hidden_sectors : Nat
  large_sectors : Nat
deriving DecidableEq, Repr

/-- `FatBPB::parse`: reads the 36 leading bytes, returns the rest of the buffer. -/
def FatBPB.parse (bytes : List Nat) : Except Fat16Error (FatBPB × List Nat) := do
  let x86_jmp ← sliceE bytes 0 3
  let oem_name ← sliceE bytes 3 11
  let bps ← sliceE bytes 11 13
  let spc ← idxE bytes 13
  let rsc ← sliceE bytes 14 16
  let nf ← idxE bytes 16
  let rec_ ← sliceE bytes 17 19
  let ts ← sliceE bytes 19 21
  let media ← idxE bytes 21
  let spf ← sliceE bytes 22 24
  let spt ← sliceE bytes 24 26
  let nh ← sliceE bytes 26 28
  let hs ← sliceE bytes 28 32
  let ls ← sliceE bytes 32 36
  .ok ({ x86_jmp := x86_jmp
         oem_name := oem_name
         bytes_per_sector := le16 bps
         sectors_per_cluster := spc
         reserved_sector_count := le16 rsc
         num_fats := nf
         root_entry_count := le16 rec_
         total_sectors := le16 ts
         media := media
         sectors_per_fat := le16 spf
         sectors_per_track := le16 spt
         num_heads := le16 nh
         hidden_sectors := le32 hs
         large_sectors := le32 ls }, bytes.drop 36)

/-- `Fat16EBPB` of src/src/fat16.rs. -/
structure Fat16EBPB where
  drive_number : Nat
  reserved1 : Nat
  boot_signature : Nat
  volume_id : Nat
  volume_label : List Nat
  file_system_type : List Nat
  boot_code : List Nat
  boot_partition_signature : List Nat
deriving DecidableEq, Repr

/-- `Fat16EBPB::parse`: reads the 476 bytes after the BPB (boot sector total 512).
The boot-partition signature bytes are stored, never validated. -/
def Fat16EBPB.parse (bytes : List Nat) : Except Fat16Error (Fat16EBPB × List Nat) := do
  let dn ← idxE bytes 0
  let r1 ← idxE bytes 1
  let bs ← idxE bytes 2
  let vid ← sliceE bytes 3 7
  let vl ← sliceE bytes 7 18
  let fst_ ← sliceE bytes 18 26
  let bc ← sliceE bytes 26 474
  let bps ← sliceE bytes 474 476
  .ok ({ drive_number := dn
         reserved1 := r1
         boot_signature := bs
         volume_id := le32 vid
         volume_label := vl
         file_system_type := fst_
         boot_code := bc
         boot_partition_signature := bps }, bytes.drop 476)

/-- `Fat16AllocTable` of src/src/fat16.rs: the FAT as a flat list of u16 links. -/
structure Fat16AllocTable where
  table : List Nat
deriving DecidableEq, Repr

/-- The FAT-entry read loop of `Fat16AllocTable::parse`: for each `id` below the
count, read the little-endian u16 at byte offset `id * 2` (the `id * 2` is u32
arithmetic in the source, so it overflow-checks).  Entries are accumulated in
ascending id order. -/
def readFatEntries (bytes : List Nat) : Nat → Except Fat16Error (List Nat)
  | 0 => .ok []
  | n + 1 => do
    let init ← readFatEntries bytes n
    let off ← mulU32 n 2
    let e ← sliceE bytes off (off + 2)
    .ok (init ++ [le16 e])

/-- `Fat16AllocTable::parse`: computes the FAT region size and entry count from
the BPB, reads the entries, and skips `fat_size` bytes.  All the scalar
arithmetic is u32 in the source (overflow panics in a debug build), and the
divisions by `sectors_per_cluster` panic when that field is zero. -/
def Fat16AllocTable.parse (bytes : List Nat) (bpb : FatBPB) :
    Except Fat16Error (Fat16AllocTable × List Nat) := do
  let nfSpf ← mulU32 bpb.num_fats bpb.sectors_per_fat
  let fat_size ← mulU32 nfSpf bpb.bytes_per_sector
  let fat_entry_cnt ←
    if bpb.total_sectors = 0 then divU32 bpb.large_sectors bpb.sectors_per_cluster
    else divU32 bpb.total_sectors bpb.sectors_per_cluster
  let table ← readFatEntries bytes fat_entry_cnt
  let rest ← if fat_size ≤ bytes.length then .ok (bytes.drop fat_size) else .error .panic
  .ok ({ table := table }, rest)

/-- `Fat16AllocTable::get_cluster_chain`: `while cluster < 0xFFF8 { push cluster;
cluster = table[cluster] }`.  The source loop can diverge (a link cycle) and can
panic (a link outside the table); the fuel argument makes divergence observable
as `.error .timeout`. -/
def Fat16AllocTable.get_cluster_chain (t : Fat16AllocTable) :
    Nat → Nat → Except Fat16Error (List Nat)
  | 0, _ => .error .timeout
  | fuel + 1, cluster =>
    if cluster < 65528 then
      if cluster < t.table.length then
        (t.get_cluster_chain fuel (t.table.getD cluster 0)).map (fun l => cluster :: l)
      else .error .panic
    else .ok []

/-- `FatDirEntry` of src/src/fat.rs.  The name is the list of Unicode scalar
values of the Rust `String`. -/
structure FatDirEntry where
  name : List Nat
  attribute_ : Nat
  reserved : Nat
  creation_time : FatTime
  creation_date : FatDate
  last_access_date : FatDate
  last_modify_time : FatTime
  last_modify_date : FatDate
  first_cluster : Nat
  file_size : Nat
deriving DecidableEq, Repr

/-- The `while bytes[11] == 0x0f` loop of `FatDirEntry::parse_lfn`: read the 13
UTF-16 code units of each long-file-name fragment, decode them (`?` on
`String::from_utf16`), prepend to the accumulator, advance 32 bytes.  Each
iteration consumes 32 bytes, so fuel equal to the byte length never runs out. -/
def lfnLoop : Nat → List Nat → List Nat → Except Fat16Error (List Nat × List Nat)
  | 0, _, _ => .error .timeout
  | fuel + 1, bytes, text => do
    let a11 ← idxE bytes 11
    if a11 = 15 then do
      let u1 ← sliceE bytes 1 3
      let u2 ← sliceE bytes 3 5
      let u3 ← sliceE bytes 5 7
      let u4 ← sliceE bytes 7 9
      let u5 ← sliceE bytes 9 11
      let u6 ← sliceE bytes 14 16
      let u7 ← sliceE bytes 16 18
      let u8 ← sliceE bytes 18 20
      let u9 ← sliceE bytes 20 22
      let u10 ← sliceE bytes 22 24
      let u11 ← sliceE bytes 24 26
      let u12 ← sliceE bytes 28 30
      let u13 ← sliceE bytes 30 32
      let frag ← utf16Decode
        [le16 u1, le16 u2, le16 u3, le16 u4, le16 u5, le16 u6, le16 u7,
         le16 u8, le16 u9, le16 u10, le16 u11, le16 u12, le16 u13]
      lfnLoop fuel (bytes.drop 32) (frag ++ text)
    else .ok (text, bytes)

/-- `FatDirEntry::parse_lfn`: if byte 11 is not 0x0F there is no LFN; otherwise
collect consecutive LFN fragments and cut the accumulated text at the first NUL. -/
def FatDirEntry.parse_lfn (bytes : List Nat) :
    Except Fat16Error (Option (List Nat) × List Nat) := do
  let a11 ← idxE bytes 11
  if a11 ≠ 15 then .ok (none, bytes)
  else do
    let (text, rest) ← lfnLoop bytes.length bytes []
    .ok (some (text.takeWhile (fun c => c != 0)), rest)

/-- `FatDirEntry::parse_sfn`: a slot starting 0x00 or 0xE5 yields no entry and
consumes nothing; otherwise decode the 32-byte short-name record. -/
def FatDirEntry.parse_sfn (bytes : List Nat) :
    Except Fat16Error (Option FatDirEntry × List Nat) := do
  let b0 ← idxE bytes 0
  if b0 = 0 ∨ b0 = 229 then .ok (none, bytes)
  else do
    let base ← sliceE bytes 0 8
    let ext ← sliceE bytes 8 11
    let attr ← idxE bytes 11
    let rsv ← idxE bytes 12
    let tenths ← idxE bytes 13
    let ct ← sliceE bytes 14 16
    let cd ← sliceE bytes 16 18
    let lad ← sliceE bytes 18 20
    let lmt ← sliceE bytes 22 24
    let lmd ← sliceE bytes 24 26
    let fc ← sliceE bytes 26 28
    let fsz ← sliceE bytes 28 32
    .ok (some { name := sfnName base ext
                attribute_ := attr
                reserved := rsv
                creation_time := fatTimeFromPacked (le16 ct) tenths
                creation_date := fatDateFromPacked (le16 cd)
                last_access_date := fatDateFromPacked (le16 lad)
                last_modify_time := fatTimeFromPacked (le16 lmt) 0
                last_modify_date := fatDateFromPacked (le16 lmd)
                first_cluster := le16 fc
                file_size := le32 fsz }, bytes.drop 32)

/-- `FatDirEntry::parse_entry`: LFN fragments first, then the short-name slot;
a collected LFN name replaces the short-name-derived name. -/
def FatDirEntry.parse_entry (bytes : List Nat) :
    Except Fat16Error (Option FatDirEntry × List Nat) := do
  let (lfn_name, bytes1) ← FatDirEntry.parse_lfn bytes
  let (entry, bytes2) ← FatDirEntry.parse_sfn bytes1
  let entry :=
    match entry, lfn_name with
    | some e, some n => some { e with name := n }
    | e, _ => e
  .ok (entry, bytes2)

/-- The `while dir_bytes.len() > 0` loop of `FatDirEntry::parses`: parse an
entry; on `Some` push it and continue on the returned rest, on `None` advance
exactly 32 bytes (panicking, as the slice does, when fewer remain).  Every
iteration consumes at least 32 of the `num_entry * 32` bytes, so fuel equal to
the slot count never runs out. -/
def parsesLoop : Nat → List Nat → Except Fat16Error (List FatDirEntry)
  | _, [] => .ok []
  | 0, _ :: _ => .error .timeout
  | fuel + 1, bytes => do
    match ← FatDirEntry.parse_entry bytes with
    | (some e, rest) => (parsesLoop fuel rest).map (fun l => e :: l)
    | (none, _) =>
      if 32 ≤ bytes.length then parsesLoop fuel (bytes.drop 32) else .error .panic

/-- `FatDirEntry::parses`: scan `num_entry` 32-byte slots.  The length check
formats its message with `num_entry * 32` in u16, which itself overflow-panics
in a debug build when `num_entry > 2047`; the successful path returns the
decoded entries plus the buffer after the scanned region. -/
def FatDirEntry.parses (bytes : List Nat) (num_entry : Nat) :
    Except Fat16Error (List FatDirEntry × List Nat) :=
  if num_entry * 32 > bytes.length then
    if num_entry * 32 ≤ 65535 then .error .shortDirBuffer else .error .panic
  else do
    let entries ← parsesLoop num_entry (bytes.take (num_entry * 32))
    .ok (entries, bytes.drop (num_entry * 32))

/-- `Path` of src/src/utils.rs: an absolute path string. -/
structure Path where
  abs_path : List Nat
deriving DecidableEq, Repr

/-- `impl From<&str> for Path`: store the ASCII-lowercased path. -/
def Path.fromStr (s : List Nat) : Path := { abs_path := toLowerAscii s }

/-- `Path::parse`: drop the leading slash, split the rest on the slash
(code point 47).  Splitting an empty string yields one empty segment. -/
def Path.parse (p : Path) : List (List Nat) :=
  (p.abs_path.drop 1).splitOn 47

/-- `Fat16` of src/src/fat16.rs: the decoded image owned by the facade. -/
structure Fat16 where
  bpb : FatBPB
  ebpb : Fat16EBPB
  alloc_table : Fat16AllocTable
  root_dir : List FatDirEntry
  clusters : List Nat
deriving DecidableEq, Repr

/-- `Fat16::new` after the image bytes are loaded (the file read itself is an
external collaborator): BPB, extended BPB, FAT, root directory, and the
remaining bytes become the cluster region. -/
def Fat16.new (bytes : List Nat) : Except Fat16Error Fat16 := do
  let (bpb, bytes1) ← FatBPB.parse bytes
  let (ebpb, bytes2) ← Fat16EBPB.parse bytes1
  let (alloc_table, bytes3) ← Fat16AllocTable.parse bytes2 bpb
  let (root_dir, bytes4) ← FatDirEntry.parses bytes3 bpb.root_entry_count
  .ok { bpb := bpb, ebpb := ebpb, alloc_table := alloc_table,
        root_dir := root_dir, clusters := bytes4 }

/-- `Fat16::read_cluster`: `head = (cluster_number as usize - 2) * bpc` — the
subtraction underflow-panics in a debug build when the cluster number is below
2; otherwise an explicit range check yields the out-of-range error. -/
def Fat16.read_cluster (fs : Fat16) (cluster_number : Nat) :
    Except Fat16Error (List Nat) :=
  let bytes_per_cluster := fs.bpb.bytes_per_sector * fs.bpb.sectors_per_cluster
  if cluster_number < 2 then .error .panic
  else
    let head := (cluster_number - 2) * bytes_per_cluster
    if head + bytes_per_cluster > fs.clusters.length then .error .clusterOutOfRange
    else .ok ((fs.clusters.drop head).take bytes_per_cluster)

/-- The cluster-concatenation loop of `Fat16::read_file`: read each cluster of
the chain in order and append its bytes. -/
def Fat16.readClusters (fs : Fat16) : List Nat → Except Fat16Error (List Nat)
  | [] => .ok []
  | c :: cs => do
    let data ← fs.read_cluster c
    let rest ← fs.readClusters cs
    .ok (data ++ rest)

/-- The cluster loop of `Fat16::read_dir_entry`: decode `entries_per_cluster`
slots from each cluster of the chain and concatenate. -/
def Fat16.readDirClusters (fs : Fat16) (entries_per_cluster : Nat) :
    List Nat → Except Fat16Error (List FatDirEntry)
  | [] => .ok []
  | c :: cs => do
    let data ← fs.read_cluster c
    let (part, _) ← FatDirEntry.parses data entries_per_cluster
    let rest ← fs.readDirClusters entries_per_cluster cs
    .ok (part ++ rest)

/-- `Fat16::read_dir_entry`: follow the cluster chain of the given entry (its
`first_cluster` cast to u16) and decode every cluster as directory slots.  The
`(bytes_per_cluster / 32) as u16` cast wraps modulo 65536 as in the source.
No attribute check is made. -/
def Fat16.read_dir_entry (fs : Fat16) (fuel : Nat) (dir_entry : FatDirEntry) :
    Except Fat16Error (List FatDirEntry) := do
  let bytes_per_cluster := fs.bpb.bytes_per_sector * fs.bpb.sectors_per_cluster
  let entries_per_cluster := (bytes_per_cluster / 32) % 65536
  let chain ← fs.alloc_table.get_cluster_chain fuel (dir_entry.first_cluster % 65536)
  fs.readDirClusters entries_per_cluster chain

/-- The segment loop of `Fat16::find_dir_entry`: for each non-terminal segment,
find the entry whose lowercased name equals the segment and replace the entry
list by the decoded contents of its cluster chain — with no attribute check;
the terminal segment returns the matching entry itself.  The empty segment list
cannot arise from `Path::parse` (whose result is always non-empty); in the
source it would underflow `dirs.len() - 1`, hence `.panic`. -/
def Fat16.findAux (fs : Fat16) (fuel : Nat) :
    List FatDirEntry → List (List Nat) → Except Fat16Error FatDirEntry
  | _, [] => .error .panic
  | entries, [d] =>
    match entries.find? (fun e => toLowerAscii e.name == d) with
    | some e => .ok e
    | none => .error .noSuchFileOrDirectory
  | entries, d :: d2 :: rest =>
    match entries.find? (fun e => toLowerAscii e.name == d) with
    | some e => do
      let entries1 ← fs.read_dir_entry fuel e
      fs.findAux fuel entries1 (d2 :: rest)
    | none => .error .noSuchFileOrDirectory

/-- `Fat16::find_dir_entry`: resolve a parsed absolute path against the root
directory. -/
def Fat16.find_dir_entry (fs : Fat16) (fuel : Nat) (path : Path) :
    Except Fat16Error FatDirEntry :=
  fs.findAux fuel fs.root_dir path.parse

/-- `Fat16::read_file`: resolve the entry, follow its cluster chain, concatenate
the cluster bytes, and truncate to `file_size`.  No attribute check is made. -/
def Fat16.read_file (fs : Fat16) (fuel : Nat) (path : Path) :
    Except Fat16Error (List Nat) := do
  let entry ← fs.find_dir_entry fuel path
  let chain ← fs.alloc_table.get_cluster_chain fuel (entry.first_cluster % 65536)
  let file ← fs.readClusters chain
  .ok (file.take entry.file_size)

/-- `Fat16::read_directory`: resolve the entry and decode its cluster chain as
directory slots.  No special case for the root path, no attribute check. -/
def Fat16.read_directory (fs : Fat16) (fuel : Nat) (path : Path) :
    Except Fat16Error (List FatDirEntry) := do
  let entry ← fs.find_dir_entry fuel path
  fs.read_dir_entry fuel entry

/-- Specification predicate for claim C9: following table links from `c` reaches
an end-of-chain value (at least 0xFFF8) within `n` steps, every intermediate
link being a valid index into the table. -/
def chainTerminates (table : List Nat) : Nat → Nat → Bool
  | 0, c => decide (65528 ≤ c)
  | n + 1, c =>
    if 65528 ≤ c then true
    else if c < table.length then chainTerminates table n (table.getD c 0)
    else false

/-! ### Concrete images and states used by the counterexamples and witnesses -/

/-- A 512-byte boot sector, all zero except: bytes_per_sector = 1 (offset 11),
sectors_per_cluster = 1 (13), num_fats = 1 (16), root_entry_count = 1 (17),
total_sectors = 2 (19), sectors_per_fat = 4 (22).  The boot-partition signature
bytes at offsets 510 and 511 are 0, not 0x55 0xAA. -/
def bootSectorA : List Nat :=
  ((((((List.replicate 512 0).set 11 1).set 13 1).set 16 1).set 17 1).set 19 2).set 22 4

/-- A 32-byte short-name slot: name bytes spell an `a` padded with spaces and
extension `txt` (presented as a.txt), attribute 0x20 (archive), first_cluster
0xFFF8 (immediately end-of-chain), file_size 100. -/
def entryBytesA : List Nat :=
  [97, 32, 32, 32, 32, 32, 32, 32, 116, 120, 116, 32, 0, 0, 0, 0,
   0, 0, 0, 0, 0, 0, 0, 0, 0, 0, 248, 255, 100, 0, 0, 0]

/-- Image A: boot sector, a 4-byte FAT region whose two entries are 0xFFF8 and
0xFFFF, one root slot (a.txt, first_cluster 0xFFF8, size 100), empty cluster
region. -/
def bufA : List Nat := bootSectorA ++ [248, 255, 255, 255] ++ entryBytesA

/-- Boot sector for image B: bytes_per_sector = 32, sectors_per_cluster = 1,
num_fats = 1, root_entry_count = 1, total_sectors = 3, sectors_per_fat = 1
(so the FAT region is 32 bytes and each cluster holds one 32-byte slot). -/
def bootSectorB : List Nat :=
  ((((((List.replicate 512 0).set 11 32).set 13 1).set 16 1).set 17 1).set 19 3).set 22 1

/-- Root slot of image B: a.txt, attribute 0x20 (archive, NOT a directory),
first_cluster 2, file_size 0. -/
def entryBytesA2 : List Nat :=
  [97, 32, 32, 32, 32, 32, 32, 32, 116, 120, 116, 32, 0, 0, 0, 0,
   0, 0, 0, 0, 0, 0, 0, 0, 0, 0, 2, 0, 0, 0, 0, 0]

/-- A 32-byte short-name slot for b.txt: attribute 0x20, first_cluster 0,
file_size 0. -/
def entryBytesB : List Nat :=
  [98, 32, 32, 32, 32, 32, 32, 32, 116, 120, 116, 32, 0, 0, 0, 0,
   0, 0, 0, 0, 0, 0, 0, 0, 0, 0, 0, 0, 0, 0, 0, 0]

/-- Image B: boot sector, 32-byte FAT whose entry 2 is 0xFFF8, one root slot
(a.txt, an archive-attribute file whose single data cluster happens to contain
a directory slot for b.txt), and that 32-byte cluster region. -/
def bufB : List Nat :=
  bootSectorB ++ ([0, 0, 0, 0, 248, 255] ++ List.replicate 26 0) ++ entryBytesA2 ++ entryBytesB

/-- Image for C1: all-zero boot sector except sectors_per_cluster = 1 and
total_sectors = 1, followed by a 2-byte FAT read region.  Its signature bytes
(510, 511) are 0 0, not 0x55 0xAA, and root_entry_count is 0. -/
def c1buf : List Nat := (((List.replicate 512 0).set 13 1).set 19 1) ++ [0, 0]

/-- A directory region for C6: an end-of-directory sentinel slot (first byte
0x00) followed by a live slot for b.txt. -/
def c6buf : List Nat := List.replicate 32 0 ++ entryBytesB

/-- The path value for the string slash a.txt (already lowercase). -/
def pathA : Path := Path.fromStr [47, 97, 46, 116, 120, 116]

/-- The root-only path, the one-character string holding a single slash. -/
def pathRoot : Path := Path.fromStr [47]

/-- The path slash a.txt slash b.txt. -/
def pathAB : Path :=
  Path.fromStr [47, 97, 46, 116, 120, 116, 47, 98, 46, 116, 120, 116]

/-- The zero packed time. -/
def t0 : FatTime := fatTimeFromPacked 0 0

/-- The zero packed date. -/
def d0 : FatDate := fatDateFromPacked 0

/-- The decoded name a.txt. -/
def nameATxt : List Nat := [97, 46, 116, 120, 116]

/-- The decoded name b.txt. -/
def nameBTxt : List Nat := [98, 46, 116, 120, 116]

/-- A small BPB literal: bytes_per_sector = 32, sectors_per_cluster = 1 (one
32-byte slot per cluster), one FAT of one sector, one root entry. -/
def bpbLit : FatBPB :=
  { x86_jmp := [], oem_name := [], bytes_per_sector := 32, sectors_per_cluster := 1,
    reserved_sector_count := 0, num_fats := 1, root_entry_count := 1,
    total_sectors := 3, media := 0, sectors_per_fat := 1, sectors_per_track := 0,
    num_heads := 0, hidden_sectors := 0, large_sectors := 0 }

/-- A trivial extended-BPB literal. -/
def ebpbLit : Fat16EBPB :=
  { drive_number := 0, reserved1 := 0, boot_signature := 0, volume_id := 0,
    volume_label := [], file_system_type := [], boot_code := [],
    boot_partition_signature := [] }

/-- Root entry a.txt with first_cluster 0xFFF8 (empty chain) and file_size 100. -/
def aEntE : FatDirEntry :=
  { name := nameATxt, attribute_ := 32, reserved := 0, creation_time := t0,
    creation_date := d0, last_access_date := d0, last_modify_time := t0,
    last_modify_date := d0, first_cluster := 65528, file_size := 100 }

/-- Root entry a.txt with first_cluster 0 (the empty-file encoding) and
file_size 100. -/
def aEnt0 : FatDirEntry :=
  { name := nameATxt, attribute_ := 32, reserved := 0, creation_time := t0,
    creation_date := d0, last_access_date := d0, last_modify_time := t0,
    last_modify_date := d0, first_cluster := 0, file_size := 100 }

/-- Root entry a.txt with the archive attribute 0x20 and first_cluster 2. -/
def aEnt2 : FatDirEntry :=
  { name := nameATxt, attribute_ := 32, reserved := 0, creation_time := t0,
    creation_date := d0, last_access_date := d0, last_modify_time := t0,
    last_modify_date := d0, first_cluster := 2, file_size := 0 }

/-- Root entry a.txt with the directory attribute 0x10 and first_cluster 2. -/
def aEntD : FatDirEntry :=
  { name := nameATxt, attribute_ := 16, reserved := 0, creation_time := t0,
    creation_date := d0, last_access_date := d0, last_modify_time := t0,
    last_modify_date := d0, first_cluster := 2, file_size := 0 }

/-- The decoded b.txt entry of image B. -/
def bEnt : FatDirEntry :=
  { name := nameBTxt, attribute_ := 32, reserved := 0, creation_time := t0,
    creation_date := d0, last_access_date := d0, last_modify_time := t0,
    last_modify_date := d0, first_cluster := 0, file_size := 0 }

/-- A facade state whose root holds a.txt with an already-terminated chain and
recorded size 100 (used to exercise read_file on a chain shorter than the
recorded size). -/
def fsLitC2 : Fat16 :=
  { bpb := bpbLit, ebpb := ebpbLit, alloc_table := { table := [] },
    root_dir := [aEntE], clusters := [] }

/-- A facade state whose root holds a.txt with first_cluster 0; the FAT entry 0
is 0xFFF8 so the chain of cluster 0 terminates right after emitting cluster 0. -/
def fsLitC10 : Fat16 :=
  { bpb := bpbLit, ebpb := ebpbLit, alloc_table := { table := [65528, 65535] },
    root_dir := [aEnt0], clusters := [] }

/-- A facade state whose root holds the archive-attribute a.txt pointing at
cluster 2, whose 32 bytes decode as the b.txt slot. -/
def fsLitC3 : Fat16 :=
  { bpb := bpbLit, ebpb := ebpbLit, alloc_table := { table := [0, 0, 65528] },
    root_dir := [aEnt2], clusters := entryBytesB }

/-- A facade state whose root holds the directory-attribute a.txt pointing at
cluster 2 (32 data bytes). -/
def fsLitC3D : Fat16 :=
  { bpb := bpbLit, ebpb := ebpbLit, alloc_table := { table := [0, 0, 65528] },
    root_dir := [aEntD], clusters := List.replicate 32 97 }

/-! ### Generic reduction lemmas for the `Except` monad -/

@[simp] theorem ok_bind {ε α β : Type} (a : α) (f : α → Except ε β) :
    ((Except.ok a : Except ε α) >>= f) = f a := rfl

@[simp] theorem err_bind {ε α β : Type} (e : ε) (f : α → Except ε β) :
    ((Except.error e : Except ε α) >>= f) = .error e := rfl

@[simp] theorem map_ok {ε α β : Type} (a : α) (f : α → β) :
    (Except.ok a : Except ε α).map f = .ok (f a) := rfl

@[simp] theorem map_err {ε α β : Type} (e : ε) (f : α → β) :
    (Except.error e : Except ε α).map f = .error e := rfl

/-! ### Claim C5: treatment of the 0xFFF7 link in the cluster-chain walk -/

/-- C5, counterexample.  The claim says a FAT link value 0xFFF7 (bad cluster)
terminates the chain for reads, which here would return the chain [0] built
before the bad link.  In the code `while cluster < 0xFFF8` treats 0xFFF7 like
any other link: the walk pushes 0xFFF7 and then indexes the table with it,
which on this one-entry table is an out-of-bounds panic, not the chain [0]. -/
theorem c5_counterexample :
    Fat16AllocTable.get_cluster_chain { table := [65527] } 10 0 = .error .panic ∧
    Fat16AllocTable.get_cluster_chain { table := [65527] } 10 0 ≠ .ok [0] := by
  decide

/-- C5, amended: only link values at least 0xFFF8 terminate the chain; the
value 0xFFF7 is not special — the walk emits cluster 0xFFF7 itself and follows
the table link stored at index 0xFFF7 (first conjunct: greater-or-equal values
stop with the chain built so far; second conjunct: at 0xFFF7 the walk recurses
through the table entry and prepends 0xFFF7 to the resulting chain). -/
theorem c5_amended :
    (∀ (t : Fat16AllocTable) (fuel c : Nat), 65528 ≤ c →
      t.get_cluster_chain (fuel + 1) c = .ok []) ∧
    (∀ (t : Fat16AllocTable) (fuel : Nat), 65527 < t.table.length →
      t.get_cluster_chain (fuel + 1) 65527 =
        (t.get_cluster_chain fuel (t.table.getD 65527 0)).map (fun l => 65527 :: l)) := by
  constructor
  · intro t fuel c hc
    unfold Fat16AllocTable.get_cluster_chain
    rw [if_neg (by omega)]
  · intro t fuel h
    conv_lhs => unfold Fat16AllocTable.get_cluster_chain
    rw [if_pos (by omega), if_pos h]

/-- C5, witness for the amended theorem at a table of 0xFFF8 zero links and at
an end-of-chain start value. -/
theorem c5_amended_witness :
    Fat16AllocTable.get_cluster_chain { table := List.replicate 65528 0 } 6 65527 =
      (Fat16AllocTable.get_cluster_chain { table := List.replicate 65528 0 } 5
        ((List.replicate 65528 0).getD 65527 0)).map (fun l => 65527 :: l) ∧
    Fat16AllocTable.get_cluster_chain { table := [] } 1 65528 = .ok [] :=
  ⟨c5_amended.2 { table := List.replicate 65528 0 } 5
    (by simp only [List.length_replicate]; omega),
   c5_amended.1 { table := [] } 0 65528 (by omega)⟩

/-! ### Claim C8: ranges of the decoded time fields -/

/-- C8, counterexample.  The packed word 0xFFFF with tenths byte 200 decodes to
hour 31, minute 63, second 62, tenths 200 — outside every range the claim
states (hour 0 to 23, minute 0 to 59, second 0 to 58, tenths 0 to 199). -/
theorem c8_counterexample :
    ¬ ((fatTimeFromPacked 65535 200).hour ≤ 23 ∧
       (fatTimeFromPacked 65535 200).minute ≤ 59 ∧
       (fatTimeFromPacked 65535 200).second ≤ 58 ∧
       (fatTimeFromPacked 65535 200).tenths_of_second ≤ 199) := by
  decide

/-- C8, amended: the decoder masks but never validates, so the guarantees are
only the bit-width ones — hour at most 31, minute at most 63, second at most 62
and always even, tenths passed through unchanged (at most 255 for a byte). -/
theorem c8_amended : ∀ time tenths : Nat, time < 65536 → tenths < 256 →
    (fatTimeFromPacked time tenths).hour ≤ 31 ∧
    (fatTimeFromPacked time tenths).minute ≤ 63 ∧
    (fatTimeFromPacked time tenths).second ≤ 62 ∧
    2 ∣ (fatTimeFromPacked time tenths).second ∧
    (fatTimeFromPacked time tenths).tenths_of_second ≤ 255 := by
  intro time tenths _ htenths
  simp only [fatTimeFromPacked]
  refine ⟨Nat.and_le_right, Nat.and_le_right, ?_, ⟨time &&& 31, by ring⟩, by omega⟩
  have h := @Nat.and_le_right time 31
  omega

/-- C8, witness for the amended theorem at the packed word 0xFFFF, tenths 200. -/
theorem c8_amended_witness :
    (fatTimeFromPacked 65535 200).hour ≤ 31 ∧
    (fatTimeFromPacked 65535 200).minute ≤ 63 ∧
    (fatTimeFromPacked 65535 200).second ≤ 62 ∧
    2 ∣ (fatTimeFromPacked 65535 200).second ∧
    (fatTimeFromPacked 65535 200).tenths_of_second ≤ 255 :=
  c8_amended 65535 200 (by omega) (by omega)

/-! ### Claim C9: termination behaviour of the cluster-chain walk -/

/-- If the walk returns a chain, the link trajectory reaches an end-of-chain
value through in-bounds indices. -/
theorem chain_ok_terminates (table : List Nat) :
    ∀ (fuel c : Nat) (l : List Nat),
      Fat16AllocTable.get_cluster_chain { table := table } fuel c = .ok l →
      ∃ n, chainTerminates table n c = true := by
  intro fuel
  induction fuel with
  | zero => intro c l h; simp [Fat16AllocTable.get_cluster_chain] at h
  | succ fuel ih =>
    intro c l h
    unfold Fat16AllocTable.get_cluster_chain at h
    by_cases hc : c < 65528
    · rw [if_pos hc] at h
      by_cases hlen : c < table.length
      · rw [if_pos hlen] at h
        cases hrec : Fat16AllocTable.get_cluster_chain { table := table } fuel
            (table.getD c 0) with
        | error e => rw [hrec] at h; simp at h
        | ok l1 =>
          obtain ⟨n, hn⟩ := ih _ _ hrec
          refine ⟨n + 1, ?_⟩
          unfold chainTerminates
          rw [if_neg (by omega), if_pos hlen]
          exact hn
      · rw [if_neg hlen] at h; simp at h
    · exact ⟨0, by simp [chainTerminates]; omega⟩

/-- If the link trajectory reaches an end-of-chain value within `n` in-bounds
steps, the walk terminates with fuel `n + 1`. -/
theorem chain_terminates_ok (table : List Nat) :
    ∀ (n c : Nat), chainTerminates table n c = true →
      ∃ l, Fat16AllocTable.get_cluster_chain { table := table } (n + 1) c = .ok l := by
  intro n
  induction n with
  | zero =>
    intro c h
    simp [chainTerminates] at h
    exact ⟨[], by unfold Fat16AllocTable.get_cluster_chain; rw [if_neg (by omega)]⟩
  | succ n ih =>
    intro c h
    unfold chainTerminates at h
    by_cases hc : 65528 ≤ c
    · exact ⟨[], by unfold Fat16AllocTable.get_cluster_chain; rw [if_neg (by omega)]⟩
    · rw [if_neg hc] at h
      by_cases hlen : c < table.length
      · rw [if_pos hlen] at h
        obtain ⟨l, hl⟩ := ih _ h
        refine ⟨c :: l, ?_⟩
        unfold Fat16AllocTable.get_cluster_chain
        rw [if_pos (by omega), if_pos hlen, hl]
        rfl
      · rw [if_neg hlen] at h; simp at h

/-- C9: the cluster-chain walk terminates exactly when following table links
from the start reaches a value of at least 0xFFF8 through in-bounds indices
(first conjunct, both directions); on the one-entry table whose cluster 0 links
to itself the walk never terminates (second conjunct, timeout at every fuel);
and a link value below 0xFFF8 that lies outside the table bounds makes the
lookup fail with a panic (third conjunct). -/
theorem c9_termination :
    (∀ (table : List Nat) (c : Nat),
      (∃ fuel l, Fat16AllocTable.get_cluster_chain { table := table } fuel c = .ok l) ↔
      (∃ n, chainTerminates table n c = true)) ∧
    (∀ fuel, Fat16AllocTable.get_cluster_chain { table := [0] } fuel 0 =
      .error .timeout) ∧
    (∀ fuel, Fat16AllocTable.get_cluster_chain { table := [5] } (fuel + 2) 0 =
      .error .panic) := by
  refine ⟨fun table c => ⟨?_, ?_⟩, ?_, ?_⟩
  · rintro ⟨fuel, l, h⟩
    exact chain_ok_terminates table fuel c l h
  · rintro ⟨n, h⟩
    obtain ⟨l, hl⟩ := chain_terminates_ok table n c h
    exact ⟨n + 1, l, hl⟩
  · intro fuel
    induction fuel with
    | zero => rfl
    | succ fuel ih =>
      unfold Fat16AllocTable.get_cluster_chain
      rw [if_pos (by omega), if_pos (by simp)]
      simp only [List.getD_cons_zero] at ih ⊢
      rw [ih]
      rfl
  · intro fuel
    unfold Fat16AllocTable.get_cluster_chain
    rw [if_pos (by omega), if_pos (by simp)]
    unfold Fat16AllocTable.get_cluster_chain
    norm_num

/-- C9, witness: the positive direction applied to the one-entry table whose
single link is already end-of-chain. -/
theorem c9_termination_witness :
    ∃ fuel l, Fat16AllocTable.get_cluster_chain { table := [65528] } fuel 0 = .ok l :=
  (c9_termination.1 [65528] 0).mpr ⟨1, by decide⟩

/-! ### Claim C10: unguarded `cluster_number - 2` and first_cluster 0 -/

/-- Any chain the walk returns for start cluster 0 begins with cluster 0. -/
theorem chain_zero_head (t : Fat16AllocTable) (fuel : Nat) (l : List Nat)
    (h : t.get_cluster_chain fuel 0 = .ok l) : ∃ l1, l = 0 :: l1 := by
  cases fuel with
  | zero => simp [Fat16AllocTable.get_cluster_chain] at h
  | succ fuel =>
    unfold Fat16AllocTable.get_cluster_chain at h
    rw [if_pos (by omega)] at h
    by_cases hlen : 0 < t.table.length
    · rw [if_pos hlen] at h
      cases hrec : t.get_cluster_chain fuel (t.table.getD 0 0) with
      | error e => rw [hrec] at h; simp at h
      | ok l1 =>
        rw [hrec] at h
        simp at h
        exact ⟨l1, h.symm⟩
    · rw [if_neg hlen] at h; simp at h

/-- C10: `read_cluster` subtracts 2 from the cluster number with no guard, so
every cluster number below 2 panics (first conjunct, the usize underflow of a
debug build); consequently, whenever path resolution produces an entry whose
first_cluster is 0 — the empty-file encoding — `read_file` never returns a byte
vector at all, empty or otherwise (second conjunct): the chain walk emits
cluster 0 and reading it hits the unguarded subtraction. -/
theorem c10_read_cluster_underflow :
    (∀ (fs : Fat16) (c : Nat), c < 2 → fs.read_cluster c = .error .panic) ∧
    (∀ (fs : Fat16) (fuel : Nat) (p : Path) (e : FatDirEntry),
      fs.find_dir_entry fuel p = .ok e → e.first_cluster = 0 →
      ∀ v, fs.read_file fuel p ≠ .ok v) := by
  have hrc : ∀ (fs : Fat16) (c : Nat), c < 2 → fs.read_cluster c = .error .panic := by
    intro fs c hc
    unfold Fat16.read_cluster
    rw [if_pos hc]
  refine ⟨hrc, ?_⟩
  intro fs fuel p e hf h0 v hcontra
  unfold Fat16.read_file at hcontra
  rw [hf] at hcontra
  simp only [ok_bind, h0, Nat.zero_mod] at hcontra
  cases hc : fs.alloc_table.get_cluster_chain fuel 0 with
  | error er => rw [hc] at hcontra; simp at hcontra
  | ok l =>
    obtain ⟨l1, rfl⟩ := chain_zero_head _ _ _ hc
    rw [hc] at hcontra
    simp only [ok_bind] at hcontra
    unfold Fat16.readClusters at hcontra
    rw [hrc fs 0 (by omega)] at hcontra
    simp at hcontra

/-- C10, witness: on a state whose root entry a.txt records first_cluster 0
(FAT entry 0 being end-of-chain), read_file does not return the empty vector. -/
theorem c10_read_cluster_underflow_witness :
    fsLitC10.read_file 5 pathA ≠ .ok [] :=
  c10_read_cluster_underflow.2 fsLitC10 5 pathA aEnt0 (by decide) rfl []

/-! ### Characterizations of the fixed-layout parsers -/

/-- The BPB value `FatBPB::parse` extracts from a buffer of length at least 36. -/
def bpbOf (b : List Nat) : FatBPB :=
  { x86_jmp := (b.drop 0).take 3
    oem_name := (b.drop 3).take 8
    bytes_per_sector := le16 ((b.drop 11).take 2)
    sectors_per_cluster := b.getD 13 0
    reserved_sector_count := le16 ((b.drop 14).take 2)
    num_fats := b.getD 16 0
    root_entry_count := le16 ((b.drop 17).take 2)
    total_sectors := le16 ((b.drop 19).take 2)
    media := b.getD 21 0
    sectors_per_fat := le16 ((b.drop 22).take 2)
    sectors_per_track := le16 ((b.drop 24).take 2)
    num_heads := le16 ((b.drop 26).take 2)
    hidden_sectors := le32 ((b.drop 28).take 4)
    large_sectors := le32 ((b.drop 32).take 4) }

/-- `FatBPB::parse` succeeds exactly on buffers of length at least 36, and then
returns the extracted fields plus the buffer after byte 36; shorter buffers
panic on the first out-of-range slice. -/
theorem bpb_parse_eq (b : List Nat) :
    FatBPB.parse b =
      if 36 ≤ b.length then .ok (bpbOf b, b.drop 36) else .error .panic := by
  by_cases h : 36 ≤ b.length
  · have c1 : (3:Nat) ≤ b.length := by omega
    have c2 : (11:Nat) ≤ b.length := by omega
    have c3 : (13:Nat) ≤ b.length := by omega
    have c4 : 13 < b.length := by omega
    have c5 : (16:Nat) ≤ b.length := by omega
    have c6 : 16 < b.length := by omega
    have c7 : (19:Nat) ≤ b.length := by omega
    have c8 : (21:Nat) ≤ b.length := by omega
    have c9 : 21 < b.length := by omega
    have c10 : (24:Nat) ≤ b.length := by omega
    have c11 : (26:Nat) ≤ b.length := by omega
    have c12 : (28:Nat) ≤ b.length := by omega
    have c13 : (32:Nat) ≤ b.length := by omega
    simp [FatBPB.parse, sliceE, idxE, bpbOf, *]
  · rw [if_neg h]
    by_cases c1 : (3:Nat) ≤ b.length
    · by_cases c2 : (11:Nat) ≤ b.length
      · by_cases c3 : (13:Nat) ≤ b.length
        · by_cases c4 : 13 < b.length
          · by_cases c5 : (16:Nat) ≤ b.length
            · by_cases c6 : 16 < b.length
              · by_cases c7 : (19:Nat) ≤ b.length
                · by_cases c8 : (21:Nat) ≤ b.length
                  · by_cases c9 : 21 < b.length
                    · by_cases c10 : (24:Nat) ≤ b.length
                      · by_cases c11 : (26:Nat) ≤ b.length
                        · by_cases c12 : (28:Nat) ≤ b.length
                          · by_cases c13 : (32:Nat) ≤ b.length
                            · simp [FatBPB.parse, sliceE, idxE, *]
                            · simp [FatBPB.parse, sliceE, idxE, *]
                          · simp [FatBPB.parse, sliceE, idxE, *]
                        · simp [FatBPB.parse, sliceE, idxE, *]
                      · simp [FatBPB.parse, sliceE, idxE, *]
                    · simp [FatBPB.parse, sliceE, idxE, *]
                  · simp [FatBPB.parse, sliceE, idxE, *]
                · simp [FatBPB.parse, sliceE, idxE, *]
              · simp [FatBPB.parse, sliceE, idxE, *]
            · simp [FatBPB.parse, sliceE, idxE, *]
          · simp [FatBPB.parse, sliceE, idxE, *]
        · simp [FatBPB.parse, sliceE, idxE, *]
      · simp [FatBPB.parse, sliceE, idxE, *]
    · simp [FatBPB.parse, sliceE, idxE, *]

/-- The extended-BPB value `Fat16EBPB::parse` extracts from a buffer of length
at least 476. -/
def ebpbOf (b : List Nat) : Fat16EBPB :=
  { drive_number := b.getD 0 0
    reserved1 := b.getD 1 0
    boot_signature := b.getD 2 0
    volume_id := le32 ((b.drop 3).take 4)
    volume_label := (b.drop 7).take 11
    file_system_type := (b.drop 18).take 8
    boot_code := (b.drop 26).take 448
    boot_partition_signature := (b.drop 474).take 2 }

/-- `Fat16EBPB::parse` succeeds exactly on buffers of length at least 476, and
then returns the extracted fields plus the buffer after byte 476; shorter
buffers panic.  Success depends only on the length — the signature bytes are
copied, never compared with 0x55 0xAA. -/
theorem ebpb_parse_eq (b : List Nat) :
    Fat16EBPB.parse b =
      if 476 ≤ b.length then .ok (ebpbOf b, b.drop 476) else .error .panic := by
  by_cases h : 476 ≤ b.length
  · have c1 : 0 < b.length := by omega
    have c2 : 1 < b.length := by omega
    have c3 : 2 < b.length := by omega
    have c4 : (7:Nat) ≤ b.length := by omega
    have c5 : (18:Nat) ≤ b.length := by omega
    have c6 : (26:Nat) ≤ b.length := by omega
    have c7 : (474:Nat) ≤ b.length := by omega
    simp [Fat16EBPB.parse, sliceE, idxE, ebpbOf, *]
  · rw [if_neg h]
    by_cases c1 : 0 < b.length
    · by_cases c2 : 1 < b.length
      · by_cases c3 : 2 < b.length
        · by_cases c4 : (7:Nat) ≤ b.length
          · by_cases c5 : (18:Nat) ≤ b.length
            · by_cases c6 : (26:Nat) ≤ b.length
              · by_cases c7 : (474:Nat) ≤ b.length
                · simp [Fat16EBPB.parse, sliceE, idxE, *]
                · simp [Fat16EBPB.parse, sliceE, idxE, *]
              · simp [Fat16EBPB.parse, sliceE, idxE, *]
            · simp [Fat16EBPB.parse, sliceE, idxE, *]
          · simp [Fat16EBPB.parse, sliceE, idxE, *]
        · simp [Fat16EBPB.parse, sliceE, idxE, *]
      · simp [Fat16EBPB.parse, sliceE, idxE, *]
    · simp [Fat16EBPB.parse, sliceE, idxE, *]

/-! ### Claim C7: short buffers and the BPB decoder -/

/-- C7, counterexample.  On a 35-byte buffer the BPB decoder panics (the
out-of-range slice of a fixed offset), which in this embedding is the distinct
outcome `.error .panic`: it is not the proper error return the claim describes
(no ShortBuffer-style `Err` value exists in the code — the only proper error
constructor a decoder returns is the directory one), and not a parsed BPB. -/
theorem c7_counterexample :
    FatBPB.parse (List.replicate 35 7) = .error .panic ∧
    FatBPB.parse (List.replicate 35 7) ≠ .error .shortDirBuffer := by
  decide

/-- C7, amended: for every buffer shorter than 36 bytes the BPB decoder panics
on an out-of-range slice — it returns no parsed BPB, but the failure is a
panic, not a returned error value. -/
theorem c7_amended : ∀ b : List Nat, b.length < 36 →
    FatBPB.parse b = .error .panic := by
  intro b h
  rw [bpb_parse_eq, if_neg (by omega)]

/-- C7, witness for the amended theorem at the empty buffer. -/
theorem c7_amended_witness : FatBPB.parse [] = .error .panic :=
  c7_amended [] (by decide)

/-! ### Claim C1: open and the boot-partition signature -/

@[simp] theorem isOk_ok {ε α : Type} (a : α) :
    (Except.ok a : Except ε α).isOk = true := rfl

@[simp] theorem isOk_err {ε α : Type} (e : ε) :
    (Except.error e : Except ε α).isOk = false := rfl

/-- Setting an index at or beyond `a + n` does not change the `n`-element
window starting at `a`. -/
theorem take_drop_set (l : List Nat) (a n i x : Nat) (h : a + n < i) :
    (((l.set i x).drop a).take n) = ((l.drop a).take n) := by
  rw [List.drop_set, if_neg (by omega)]
  exact List.take_set_of_lt x (l.drop a) (by omega)

/-- Setting a different index does not change `getD`. -/
theorem getD_set_ne (l : List Nat) (i j x d : Nat) (h : i ≠ j) :
    (l.set i x).getD j d = l.getD j d := by
  simp [List.getD_eq_getElem?_getD, List.getElem?_set_ne h]

/-- C1, counterexample.  This image's boot-partition signature bytes (offsets
510 and 511) are 0 0, not 0x55 0xAA, yet open succeeds: the facade performs no
signature validation, so the stated equivalence (and the InvalidSignature
rejection) fails. -/
theorem c1_counterexample :
    (Fat16.new c1buf).isOk = true ∧ (c1buf.drop 510).take 2 ≠ [85, 170] := by
  decide

/-- C1, amended: open never inspects bytes 510..512 — replacing the two
signature bytes of any buffer by any values leaves the success of open
unchanged (in particular a buffer whose signature differs from 0x55 0xAA is
never rejected for that reason; success is decided by the four parse stages
alone). -/
theorem c1_amended (b : List Nat) (x y : Nat) :
    (Fat16.new ((b.set 510 x).set 511 y)).isOk = (Fat16.new b).isOk := by
  have hlen : ((b.set 510 x).set 511 y).length = b.length := by simp
  by_cases h36 : 36 ≤ b.length
  · have hbpb : bpbOf ((b.set 510 x).set 511 y) = bpbOf b := by
      have hs : ∀ a n : Nat, a + n < 510 →
          ((((b.set 510 x).set 511 y).drop a).take n) = ((b.drop a).take n) := by
        intro a n h
        rw [take_drop_set _ _ _ _ _ (by omega), take_drop_set _ _ _ _ _ (by omega)]
      have hg : ∀ j : Nat, j < 510 →
          ((b.set 510 x).set 511 y).getD j 0 = b.getD j 0 := by
        intro j h
        rw [getD_set_ne _ _ _ _ _ (by omega), getD_set_ne _ _ _ _ _ (by omega)]
      unfold bpbOf
      rw [hs 0 3 (by omega), hs 3 8 (by omega), hs 11 2 (by omega), hg 13 (by omega),
          hs 14 2 (by omega), hg 16 (by omega), hs 17 2 (by omega), hs 19 2 (by omega),
          hg 21 (by omega), hs 22 2 (by omega), hs 24 2 (by omega), hs 26 2 (by omega),
          hs 28 4 (by omega), hs 32 4 (by omega)]
    have hdrop36 : ((b.set 510 x).set 511 y).drop 36 =
        ((b.drop 36).set 474 x).set 475 y := by
      rw [List.drop_set, if_neg (by omega), List.drop_set, if_neg (by omega)]
    unfold Fat16.new
    rw [bpb_parse_eq ((b.set 510 x).set 511 y), bpb_parse_eq b,
        if_pos (by omega), if_pos h36]
    simp only [ok_bind]
    rw [hbpb, hdrop36]
    rw [ebpb_parse_eq (((b.drop 36).set 474 x).set 475 y), ebpb_parse_eq (b.drop 36)]
    have hlen476 : (((b.drop 36).set 474 x).set 475 y).length = (b.drop 36).length := by
      simp
    by_cases h476 : 476 ≤ (b.drop 36).length
    · rw [if_pos (by omega), if_pos h476]
      simp only [ok_bind]
      have hdrop476 : (((b.drop 36).set 474 x).set 475 y).drop 476 =
          (b.drop 36).drop 476 := by
        rw [List.drop_set, if_pos (by omega), List.drop_set, if_pos (by omega)]
      rw [hdrop476]
      cases halloc : Fat16AllocTable.parse ((b.drop 36).drop 476) (bpbOf b) with
      | error e => simp [halloc]
      | ok pr =>
        obtain ⟨t, r⟩ := pr
        simp only [halloc, ok_bind]
        cases hparses : FatDirEntry.parses r (bpbOf b).root_entry_count with
        | error e => simp [hparses]
        | ok pr2 =>
          obtain ⟨rd, r2⟩ := pr2
          simp [hparses]
    · rw [if_neg (by omega), if_neg h476]
  · unfold Fat16.new
    rw [bpb_parse_eq ((b.set 510 x).set 511 y), bpb_parse_eq b,
        if_neg (by omega), if_neg (by omega)]

/-! ### Claim C6: the 0x00 end-of-directory sentinel -/

/-- `getD` on an append reads the left list while in range. -/
theorem getD_append_left (l1 l2 : List Nat) (j d : Nat) (h : j < l1.length) :
    (l1 ++ l2).getD j d = l1.getD j d := by
  simp [List.getD_eq_getElem?_getD, List.getElem?_append_left h]

/-- On a slot that is neither an LFN fragment (byte 11 differs from 0x0F) and
whose first byte is 0x00, `parse_entry` emits no entry and consumes nothing. -/
theorem parse_entry_sentinel (bytes : List Nat) (hlen : 32 ≤ bytes.length)
    (h0 : bytes.getD 0 0 = 0) (h11 : bytes.getD 11 0 ≠ 15) :
    FatDirEntry.parse_entry bytes = .ok (none, bytes) := by
  have hlfn : FatDirEntry.parse_lfn bytes = .ok (none, bytes) := by
    unfold FatDirEntry.parse_lfn
    rw [idxE, if_pos (show 11 < bytes.length by omega)]
    simp only [ok_bind]
    rw [if_pos h11]
  have hsfn : FatDirEntry.parse_sfn bytes = .ok (none, bytes) := by
    unfold FatDirEntry.parse_sfn
    rw [idxE, if_pos (show 0 < bytes.length by omega)]
    simp only [ok_bind]
    rw [if_pos (Or.inl h0)]
  unfold FatDirEntry.parse_entry
  rw [hlfn]
  simp only [ok_bind]
  rw [hsfn]
  simp only [ok_bind]

/-- One iteration of the directory-scan loop on a sentinel slot: nothing is
appended and the cursor advances exactly 32 bytes. -/
theorem parsesLoop_sentinel_step (fuel : Nat) (bytes : List Nat)
    (hlen : 32 ≤ bytes.length) (h0 : bytes.getD 0 0 = 0)
    (h11 : bytes.getD 11 0 ≠ 15) :
    parsesLoop (fuel + 1) bytes = parsesLoop fuel (bytes.drop 32) := by
  cases bytes with
  | nil => simp at hlen
  | cons b0 btail =>
    have hpe := parse_entry_sentinel (b0 :: btail) hlen h0 h11
    simp only [parsesLoop, hpe, ok_bind]
    rw [if_pos hlen]

/-- C6, counterexample.  A region of two slots — an end-of-directory sentinel
(first byte 0x00) followed by a live b.txt slot — decodes to ONE entry, the
b.txt located after the sentinel, which the claim says must not appear. -/
theorem c6_counterexample :
    (FatDirEntry.parses c6buf 2).map
      (fun p => (p.1.map (fun e => e.name), p.2)) =
    .ok ([[98, 46, 116, 120, 116]], []) := by
  decide

/-- C6, amended: a slot whose first byte is 0x00 (and which is not an LFN
fragment) contributes no entry, but scanning continues past it: decoding a
region that starts with such a sentinel slot equals decoding the region after
it with one slot less — entries after the sentinel do appear in the result. -/
theorem c6_amended (slot rest : List Nat) (n : Nat)
    (h32 : slot.length = 32) (h0 : slot.getD 0 0 = 0)
    (h11 : slot.getD 11 0 ≠ 15) (hn : 32 * n ≤ rest.length) :
    FatDirEntry.parses (slot ++ rest) (n + 1) = FatDirEntry.parses rest n := by
  have htake : (slot ++ rest).take ((n + 1) * 32) = slot ++ rest.take (n * 32) := by
    rw [List.take_append_eq_append_take, List.take_of_length_le (by omega), h32]
    have harith : (n + 1) * 32 - 32 = n * 32 := by omega
    rw [harith]
  have hdrop : (slot ++ rest).drop ((n + 1) * 32) = rest.drop (n * 32) := by
    rw [List.drop_append_eq_append_drop, List.drop_of_length_le (by omega), h32]
    have harith : (n + 1) * 32 - 32 = n * 32 := by omega
    rw [harith, List.nil_append]
  have hlent : 32 ≤ (slot ++ rest.take (n * 32)).length := by
    simp [h32]
  have hstep : parsesLoop (n + 1) (slot ++ rest.take (n * 32)) =
      parsesLoop n (rest.take (n * 32)) := by
    rw [parsesLoop_sentinel_step n _ hlent
        (by rw [getD_append_left _ _ _ _ (by omega)]; exact h0)
        (by rw [getD_append_left _ _ _ _ (by omega)]; exact h11)]
    rw [List.drop_append_eq_append_drop, List.drop_of_length_le (by omega), h32,
        List.nil_append]
    have harith : (32:Nat) - 32 = 0 := by omega
    rw [harith, List.drop_zero]
  unfold FatDirEntry.parses
  rw [if_neg (by simp only [List.length_append, h32]; omega), if_neg (by omega)]
  rw [htake, hdrop, hstep]

/-- C6, witness for the amended theorem: a 32-byte zero sentinel in front of
the single b.txt slot with one extra slot to scan. -/
theorem c6_amended_witness :
    FatDirEntry.parses (List.replicate 32 0 ++ entryBytesB) (1 + 1) =
      FatDirEntry.parses entryBytesB 1 :=
  c6_amended (List.replicate 32 0) entryBytesB 1 (by decide) (by decide)
    (by decide) (by decide)

/-! ### Claim C2: length of read_file results -/

/-- C2, counterexample.  Image A's root entry a.txt records file_size 100 but
its first_cluster is already end-of-chain, so the chain contributes no bytes:
read_file on that path returns 0 bytes, not the recorded 100. -/
theorem c2_counterexample :
    (Fat16.new bufA).map
      (fun fs => ((fs.read_file 5 pathA).map List.length,
                  fs.root_dir.map (fun e => e.file_size))) =
      .ok (.ok 0, [100]) := by
  decide

/-- C2, amended: `read_file` truncates but never pads — a successful read
returns exactly `min file_size (length of the concatenated cluster-chain
data)` bytes; this equals `file_size` exactly when the chain supplies at least
`file_size` bytes. -/
theorem c2_amended (fs : Fat16) (fuel : Nat) (p : Path) (v : List Nat)
    (h : fs.read_file fuel p = .ok v) :
    ∃ e chain data,
      fs.find_dir_entry fuel p = .ok e ∧
      fs.alloc_table.get_cluster_chain fuel (e.first_cluster % 65536) = .ok chain ∧
      fs.readClusters chain = .ok data ∧
      v = data.take e.file_size ∧
      v.length = min e.file_size data.length := by
  unfold Fat16.read_file at h
  cases hf : fs.find_dir_entry fuel p with
  | error er => rw [hf] at h; simp at h
  | ok e =>
    rw [hf] at h
    simp only [ok_bind] at h
    cases hc : fs.alloc_table.get_cluster_chain fuel (e.first_cluster % 65536) with
    | error er => rw [hc] at h; simp at h
    | ok chain =>
      rw [hc] at h
      simp only [ok_bind] at h
      cases hd : fs.readClusters chain with
      | error er => rw [hd] at h; simp at h
      | ok data =>
        rw [hd] at h
        simp only [ok_bind, Except.ok.injEq] at h
        exact ⟨e, chain, data, rfl, hc, hd, h.symm, by rw [← h]; simp⟩

/-- C2, witness for the amended theorem on the state whose a.txt has an
immediately-terminated chain and recorded size 100 (the read returns 0 bytes,
which is min 100 0). -/
theorem c2_amended_witness :
    ∃ e chain data,
      fsLitC2.find_dir_entry 5 pathA = .ok e ∧
      fsLitC2.alloc_table.get_cluster_chain 5 (e.first_cluster % 65536) = .ok chain ∧
      fsLitC2.readClusters chain = .ok data ∧
      ([] : List Nat) = data.take e.file_size ∧
      ([] : List Nat).length = min e.file_size data.length :=
  c2_amended fsLitC2 5 pathA [] (by decide)

/-! ### Claim C3: attribute bits during resolution and reads -/

/-- C3, counterexample.  In image B the only root entry (a.txt) has attribute
0x20 — archive, not directory — yet read_directory on it SUCCEEDS, returning
the slot decoded from its data cluster, and find_dir_entry descends THROUGH it
to resolve a two-segment path; the claim requires the descent to happen only
with the 0x10 bit and read_directory to fail with NotADirectory here. -/
theorem c3_counterexample :
    (Fat16.new bufB).map
      (fun fs => (fs.root_dir.map (fun e => e.attribute_),
                  (fs.read_directory 5 pathA).map
                    (List.map (fun e => toLowerAscii e.name)),
                  (fs.find_dir_entry 5 pathAB).map (fun e => toLowerAscii e.name))) =
      .ok ([32], .ok [nameBTxt], .ok nameBTxt) := by
  decide

/-- C3, amended: attribute bits are never consulted.  First conjunct: at a
non-terminal segment the matched entry's cluster chain is decoded and replaces
the entry list even when the entry lacks the directory bit.  Second conjunct:
read_directory proceeds to decode the chain of a resolved non-directory entry
(never NotADirectory).  Third conjunct: read_file proceeds to read the chain of
a resolved directory-attributed entry (never NotAFile). -/
theorem c3_amended :
    (∀ (fs : Fat16) (fuel : Nat) (entries : List FatDirEntry)
        (d d2 : List Nat) (rest : List (List Nat)) (e : FatDirEntry),
      entries.find? (fun x => toLowerAscii x.name == d) = some e →
      e.attribute_ &&& 16 = 0 →
      fs.findAux fuel entries (d :: d2 :: rest) =
        (fs.read_dir_entry fuel e) >>= fun l => fs.findAux fuel l (d2 :: rest)) ∧
    (∀ (fs : Fat16) (fuel : Nat) (p : Path) (e : FatDirEntry),
      fs.find_dir_entry fuel p = .ok e → e.attribute_ &&& 16 = 0 →
      fs.read_directory fuel p = fs.read_dir_entry fuel e) ∧
    (∀ (fs : Fat16) (fuel : Nat) (p : Path) (e : FatDirEntry),
      fs.find_dir_entry fuel p = .ok e → e.attribute_ &&& 16 ≠ 0 →
      fs.read_file fuel p =
        (fs.alloc_table.get_cluster_chain fuel (e.first_cluster % 65536)) >>=
          fun chain => (fs.readClusters chain) >>=
            fun file => .ok (file.take e.file_size)) := by
  refine ⟨?_, ?_, ?_⟩
  · intro fs fuel entries d d2 rest e hfind _
    simp only [Fat16.findAux, hfind]
  · intro fs fuel p e hf _
    unfold Fat16.read_directory
    rw [hf]
    simp only [ok_bind]
  · intro fs fuel p e hf _
    unfold Fat16.read_file
    rw [hf]
    simp only [ok_bind]

/-- C3, witness: the three conjuncts applied to the archive-attribute a.txt of
the literal states (descent through a non-directory, read_directory on a
non-directory, read_file on a directory). -/
theorem c3_amended_witness :
    fsLitC3.findAux 5 [aEnt2] (nameATxt :: nameBTxt :: []) =
      ((fsLitC3.read_dir_entry 5 aEnt2) >>=
        fun l => fsLitC3.findAux 5 l (nameBTxt :: [])) ∧
    fsLitC3.read_directory 5 pathA = fsLitC3.read_dir_entry 5 aEnt2 ∧
    fsLitC3D.read_file 5 pathA =
      ((fsLitC3D.alloc_table.get_cluster_chain 5 (aEntD.first_cluster % 65536)) >>=
        fun chain => (fsLitC3D.readClusters chain) >>=
          fun file => .ok (file.take aEntD.file_size)) :=
  ⟨c3_amended.1 fsLitC3 5 [aEnt2] nameATxt nameBTxt [] aEnt2 (by decide) (by decide),
   c3_amended.2.1 fsLitC3 5 pathA aEnt2 (by decide) (by decide),
   c3_amended.2.2 fsLitC3D 5 pathA aEntD (by decide) (by decide)⟩

/-! ### Claim C4: read_directory on the root-only path -/

/-- C4, counterexample.  On image A (whose root directory holds a.txt),
read_directory of the root-only path does not return the root listing: it
fails with the not-found error, because the path parses to one empty segment
and no entry has an empty name.  The claimed special case does not exist. -/
theorem c4_counterexample :
    (Fat16.new bufA).map (fun fs => fs.read_directory 5 pathRoot) =
      .ok (.error .noSuchFileOrDirectory) := by
  decide

/-- C4, amended: the root-only path is parsed into the single empty segment and
resolved like any other path, so whenever no root entry's lowercased name is
the empty string — which holds for every entry the short-name decoder can
produce, since decoded names always contain the joining dot — read_directory
of the root path fails with the not-found error instead of returning the root
listing. -/
theorem c4_amended (fs : Fat16) (fuel : Nat)
    (h : ∀ e ∈ fs.root_dir, toLowerAscii e.name ≠ []) :
    fs.read_directory fuel pathRoot = .error .noSuchFileOrDirectory := by
  have hparse : Path.parse pathRoot = [[]] := by decide
  have hfind : fs.root_dir.find? (fun e => toLowerAscii e.name == []) = none := by
    rw [List.find?_eq_none]
    intro x hx
    simp only [beq_iff_eq]
    exact h x hx
  unfold Fat16.read_directory Fat16.find_dir_entry
  rw [hparse]
  simp only [Fat16.findAux, hfind]
  rfl

/-- C4, witness for the amended theorem on the literal state whose root entry
is a.txt. -/
theorem c4_amended_witness :
    fsLitC2.read_directory 5 pathRoot = .error .noSuchFileOrDirectory :=
  c4_amended fsLitC2 5 (by decide)

end FatSpec
